import Mathlib

/-!
Shallow embedding of the permission + data-access core of the staff-scheduling
application (files `server/middleware.ts` — permission engine — and the
in-memory `MemStorage` storage class, plus the shift-edit dispatch of
`server/routes.ts`).

Modelling conventions:
* JavaScript timestamps (`Date` values, compared via `getTime()`) are `Nat`
  milliseconds.  The ambient wall clock read by `new Date()` is a `clock`
  field threaded through the store state; a separate `tick` operation models
  real time advancing between calls (the wall clock is monotone).
* Each `Map<number, Entity>` is an association list `List (Nat × Entity)` in
  insertion order: `set` on an existing key replaces the entry in place,
  `set` on a fresh key appends, matching JavaScript `Map` iteration order.
* TypeScript `Partial<T>` records are structures of `Option`-wrapped fields;
  a `none` field is an omitted key, shallow merge is per-field `getD`.
* `Array.prototype.sort` is stable (ECMAScript 2019), so the activity sort is
  modelled by a stable insertion sort with the comparator of the source.
-/

/-- Role type from `middleware.ts` (`type Role = "admin" | "manager" | "employee"`). -/
inductive Role where
  | admin
  | manager
  | employee
deriving DecidableEq, Repr

/-- Permission record from `middleware.ts` (interface `Permission`, 18 boolean capabilities). -/
structure Permission where
  viewUsers : Bool
  createUser : Bool
  editUser : Bool
  deleteUser : Bool
  viewDepartments : Bool
  createDepartment : Bool
  editDepartment : Bool
  deleteDepartment : Bool
  viewShifts : Bool
  createShift : Bool
  editShift : Bool
  editOwnShift : Bool
  deleteShift : Bool
  viewTimeOff : Bool
  createTimeOff : Bool
  approveTimeOff : Bool
  viewMessages : Bool
  sendMessages : Bool
deriving DecidableEq, Repr

/-- The 18 capability names (the keys of `Permission`, i.e. `keyof Permission`). -/
inductive Capability where
  | viewUsers
  | createUser
  | editUser
  | deleteUser
  | viewDepartments
  | createDepartment
  | editDepartment
  | deleteDepartment
  | viewShifts
  | createShift
  | editShift
  | editOwnShift
  | deleteShift
  | viewTimeOff
  | createTimeOff
  | approveTimeOff
  | viewMessages
  | sendMessages
deriving DecidableEq, Repr

/-- Field lookup `perms[permissionKey]` for a capability key. -/
def Permission.get (p : Permission) : Capability → Bool
  | .viewUsers => p.viewUsers
  | .createUser => p.createUser
  | .editUser => p.editUser
  | .deleteUser => p.deleteUser
  | .viewDepartments => p.viewDepartments
  | .createDepartment => p.createDepartment
  | .editDepartment => p.editDepartment
  | .deleteDepartment => p.deleteDepartment
  | .viewShifts => p.viewShifts
  | .createShift => p.createShift
  | .editShift => p.editShift
  | .editOwnShift => p.editOwnShift
  | .deleteShift => p.deleteShift
  | .viewTimeOff => p.viewTimeOff
  | .createTimeOff => p.createTimeOff
  | .approveTimeOff => p.approveTimeOff
  | .viewMessages => p.viewMessages
  | .sendMessages => p.sendMessages

/-- Static role-capability table `rolePermissions` from `middleware.ts` lines 40-113. -/
def rolePermissions : Role → Permission
  | .admin =>
    { viewUsers := true, createUser := true, editUser := true, deleteUser := true
      viewDepartments := true, createDepartment := true, editDepartment := true
      deleteDepartment := true
      viewShifts := true, createShift := true, editShift := true, editOwnShift := true
      deleteShift := true
      viewTimeOff := true, createTimeOff := true, approveTimeOff := true
      viewMessages := true, sendMessages := true }
  | .manager =>
    { viewUsers := true, createUser := false, editUser := true, deleteUser := false
      viewDepartments := true, createDepartment := false, editDepartment := false
      deleteDepartment := false
      viewShifts := true, createShift := true, editShift := true, editOwnShift := true
      deleteShift := true
      viewTimeOff := true, createTimeOff := true, approveTimeOff := true
      viewMessages := true, sendMessages := true }
  | .employee =>
    { viewUsers := true, createUser := false, editUser := false, deleteUser := false
      viewDepartments := true, createDepartment := false, editDepartment := false
      deleteDepartment := false
      viewShifts := true, createShift := false, editShift := false, editOwnShift := true
      deleteShift := false
      viewTimeOff := true, createTimeOff := true, approveTimeOff := false
      viewMessages := true, sendMessages := true }

/-- User entity from `shared/schema.ts` (`users` table). -/
structure User where
  id : Nat
  username : String
  password : String
  firstName : String
  lastName : String
  role : Role
  position : Option String
  department : Option String
  profileImage : Option String
deriving DecidableEq, Repr

/-- Outcome of the `checkPermission` middleware: call `next()` (allow) or answer
403 with one of its three distinct refusal messages. -/
inductive Decision where
  | allow
  | denyNoPermission
  | denyNotOwnShift
  | denyCannotEditShifts
deriving DecidableEq, Repr

/-- The `checkPermission(permissionKey)` middleware body from `middleware.ts`
lines 182-224, in the authenticated case (`req.userPermissions` set to `perms`,
`req.currentUser` to `currentUser`, `parseInt(req.body.userId)` to
`bodyUserId`, with `none` for a missing or non-numeric body field).

Note the second branch requires `key = editShift` and `perms.editShift = false`
at a point where the first branch has already established `perms.get key = true`;
it is therefore unreachable, exactly as in the source. -/
def checkPermission (perms : Permission) (key : Capability)
    (currentUser : Option User) (bodyUserId : Option Nat) : Decision :=
  if perms.get key = false then
    .denyNoPermission
  else if key = .editShift ∧ perms.editShift = false then
    match currentUser with
    | some u =>
      if perms.editOwnShift then
        if bodyUserId ≠ some u.id then .denyNotOwnShift else .allow
      else .denyCannotEditShifts
    | none => .denyCannotEditShifts
  else
    .allow

/-- Permission phase of the `PUT /api/shifts/:id` route (`routes.ts` lines
350-368), once the target shift has been found: an employee editing their own
shift is checked against `editOwnShift`, every other case against `editShift`.
`shiftOwnerId` is the `userId` of the found shift; permissions come from the
`authenticate` middleware as `rolePermissions[user.role]`. -/
def authorizeShiftEdit (u : User) (shiftOwnerId : Nat) (bodyUserId : Option Nat) : Decision :=
  if u.role = Role.employee ∧ shiftOwnerId = u.id then
    checkPermission (rolePermissions u.role) .editOwnShift (some u) bodyUserId
  else
    checkPermission (rolePermissions u.role) .editShift (some u) bodyUserId

/-- Insert payload for users (`InsertUser` = `users` minus `id`). -/
structure InsertUser where
  username : String
  password : String
  firstName : String
  lastName : String
  role : Role
  position : Option String
  department : Option String
  profileImage : Option String
deriving DecidableEq, Repr

/-- Department entity from `shared/schema.ts`. -/
structure Department where
  id : Nat
  name : String
  color : String
deriving DecidableEq, Repr

/-- Insert payload for departments (`InsertDepartment` = `departments` minus `id`). -/
structure InsertDepartment where
  name : String
  color : String
deriving DecidableEq, Repr

/-- Shift entity from `shared/schema.ts`; `date` is a timestamp in milliseconds. -/
structure Shift where
  id : Nat
  userId : Nat
  date : Nat
  startTime : String
  endTime : String
  department : String
  notes : Option String
deriving DecidableEq, Repr

/-- Insert payload for shifts (`InsertShift` = `shifts` minus `id`). -/
structure InsertShift where
  userId : Nat
  date : Nat
  startTime : String
  endTime : String
  department : String
  notes : Option String
deriving DecidableEq, Repr

/-- Time-off request entity from `shared/schema.ts`. -/
structure TimeOffRequest where
  id : Nat
  userId : Nat
  startDate : Nat
  endDate : Nat
  reason : Option String
  status : String
  createdAt : Nat
  reviewedBy : Option Nat
  reviewedAt : Option Nat
deriving DecidableEq, Repr

/-- Insert payload for time-off requests (`InsertTimeOffRequest` omits `id`,
`status`, `createdAt`, `reviewedBy`, `reviewedAt`). -/
structure InsertTimeOffRequest where
  userId : Nat
  startDate : Nat
  endDate : Nat
  reason : Option String
deriving DecidableEq, Repr

/-- Activity entity from `shared/schema.ts`. -/
structure Activity where
  id : Nat
  type : String
  description : String
  userId : Option Nat
  relatedUserId : Option Nat
  createdAt : Nat
deriving DecidableEq, Repr

/-- Insert payload for activities (`InsertActivity` omits `id` and `createdAt`). -/
structure InsertActivity where
  type : String
  description : String
  userId : Option Nat
  relatedUserId : Option Nat
deriving DecidableEq, Repr

/-- Message entity from `shared/schema.ts`. -/
structure Message where
  id : Nat
  senderId : Option Nat
  receiverId : Nat
  subject : Option String
  content : String
  isRead : Bool
  priority : String
  messageType : String
  createdAt : Nat
deriving DecidableEq, Repr

/-- Insert payload for messages (`InsertMessage` omits `id`, `isRead`, `createdAt`). -/
structure InsertMessage where
  senderId : Option Nat
  receiverId : Nat
  subject : Option String
  content : String
  priority : String
  messageType : String
deriving DecidableEq, Repr

/-- `Map.prototype.get`: the (unique) entry with the given key, if any. -/
def mapGet (k : Nat) : List (Nat × α) → Option α
  | [] => none
  | p :: rest => if p.1 == k then some p.2 else mapGet k rest

/-- `Map.prototype.set`: replace the entry with key `k` in place, or append a
new entry, preserving iteration (insertion) order. -/
def mapSet (k : Nat) (v : α) : List (Nat × α) → List (Nat × α)
  | [] => [(k, v)]
  | p :: rest => if p.1 == k then (k, v) :: rest else p :: mapSet k v rest

/-- `Map.prototype.delete`: remove the entry with key `k`; the Bool is the
return value (whether an entry existed). -/
def mapDelete (k : Nat) : List (Nat × α) → Bool × List (Nat × α)
  | [] => (false, [])
  | p :: rest =>
    if p.1 == k then (true, rest)
    else
      let r := mapDelete k rest
      (r.1, p :: r.2)

/-- `Array.from(map.values())`: the values in insertion order. -/
def mapValues (m : List (Nat × α)) : List α :=
  m.map (fun p => p.2)

/-- State of a `MemStorage` instance: the six entity maps and per-kind next-id
counters, plus the ambient wall clock read by `new Date()`. -/
structure StoreState where
  users : List (Nat × User)
  departments : List (Nat × Department)
  shifts : List (Nat × Shift)
  timeOffRequests : List (Nat × TimeOffRequest)
  activities : List (Nat × Activity)
  messages : List (Nat × Message)
  userIdCounter : Nat
  departmentIdCounter : Nat
  shiftIdCounter : Nat
  timeOffRequestIdCounter : Nat
  activityIdCounter : Nat
  messageIdCounter : Nat
  clock : Nat
deriving DecidableEq, Repr

/-- A store with empty maps and all counters at 1, as set by the `MemStorage`
constructor before `initializeDefaultData` seeds sample rows.  (The claims
quantify over arbitrary store states; this state is used for witnesses.) -/
def emptyState : StoreState :=
  { users := [], departments := [], shifts := [], timeOffRequests := []
    activities := [], messages := []
    userIdCounter := 1, departmentIdCounter := 1, shiftIdCounter := 1
    timeOffRequestIdCounter := 1, activityIdCounter := 1, messageIdCounter := 1
    clock := 0 }

/-- `MemStorage.getUser`. -/
def getUser (s : StoreState) (id : Nat) : Option User :=
  mapGet id s.users

/-- `MemStorage.getUserByUsername`. -/
def getUserByUsername (s : StoreState) (username : String) : Option User :=
  (mapValues s.users).find? (fun u => u.username == username)

/-- `MemStorage.createUser`: `id = userIdCounter++`, spreads the payload and the id. -/
def createUser (s : StoreState) (u : InsertUser) : User × StoreState :=
  let id := s.userIdCounter
  let newUser : User :=
    { id := id, username := u.username, password := u.password
      firstName := u.firstName, lastName := u.lastName, role := u.role
      position := u.position, department := u.department, profileImage := u.profileImage }
  (newUser, { s with users := mapSet id newUser s.users, userIdCounter := id + 1 })

/-- `MemStorage.getUsers`. -/
def getUsers (s : StoreState) : List User :=
  mapValues s.users

/-- Model of `Partial<InsertUser>`: every key optional, `id` not present. -/
structure UserPatch where
  username : Option String := none
  password : Option String := none
  firstName : Option String := none
  lastName : Option String := none
  role : Option Role := none
  position : Option (Option String) := none
  department : Option (Option String) := none
  profileImage : Option (Option String) := none
deriving DecidableEq, Repr

/-- Shallow merge `{ ...user, ...data }` for a user patch. -/
def applyUserPatch (u : User) (p : UserPatch) : User :=
  { id := u.id
    username := p.username.getD u.username
    password := p.password.getD u.password
    firstName := p.firstName.getD u.firstName
    lastName := p.lastName.getD u.lastName
    role := p.role.getD u.role
    position := p.position.getD u.position
    department := p.department.getD u.department
    profileImage := p.profileImage.getD u.profileImage }

/-- `MemStorage.updateUser`. -/
def updateUser (s : StoreState) (id : Nat) (p : UserPatch) : Option User × StoreState :=
  match getUser s id with
  | none => (none, s)
  | some u =>
    let updatedUser := applyUserPatch u p
    (some updatedUser, { s with users := mapSet id updatedUser s.users })

/-- `MemStorage.deleteUser`: `this.users.delete(id)`. -/
def deleteUser (s : StoreState) (id : Nat) : Bool × StoreState :=
  let r := mapDelete id s.users
  (r.1, { s with users := r.2 })

/-- `MemStorage.getDepartment`. -/
def getDepartment (s : StoreState) (id : Nat) : Option Department :=
  mapGet id s.departments

/-- `MemStorage.getDepartments`. -/
def getDepartments (s : StoreState) : List Department :=
  mapValues s.departments

/-- `MemStorage.createDepartment`. -/
def createDepartment (s : StoreState) (d : InsertDepartment) : Department × StoreState :=
  let id := s.departmentIdCounter
  let newDepartment : Department := { id := id, name := d.name, color := d.color }
  (newDepartment,
   { s with departments := mapSet id newDepartment s.departments, departmentIdCounter := id + 1 })

/-- Model of `Partial<InsertDepartment>`. -/
structure DepartmentPatch where
  name : Option String := none
  color : Option String := none
deriving DecidableEq, Repr

/-- Shallow merge `{ ...department, ...data }`. -/
def applyDepartmentPatch (d : Department) (p : DepartmentPatch) : Department :=
  { id := d.id, name := p.name.getD d.name, color := p.color.getD d.color }

/-- `MemStorage.updateDepartment`. -/
def updateDepartment (s : StoreState) (id : Nat) (p : DepartmentPatch) :
    Option Department × StoreState :=
  match getDepartment s id with
  | none => (none, s)
  | some d =>
    let updatedDepartment := applyDepartmentPatch d p
    (some updatedDepartment,
     { s with departments := mapSet id updatedDepartment s.departments })

/-- `MemStorage.deleteDepartment`. -/
def deleteDepartment (s : StoreState) (id : Nat) : Bool × StoreState :=
  let r := mapDelete id s.departments
  (r.1, { s with departments := r.2 })

/-- `MemStorage.getShift`. -/
def getShift (s : StoreState) (id : Nat) : Option Shift :=
  mapGet id s.shifts

/-- `MemStorage.getShifts`. -/
def getShifts (s : StoreState) : List Shift :=
  mapValues s.shifts

/-- `MemStorage.getShiftsByUser`. -/
def getShiftsByUser (s : StoreState) (userId : Nat) : List Shift :=
  (mapValues s.shifts).filter (fun sh => sh.userId == userId)

/-- `MemStorage.getShiftsByDateRange`: keeps the shifts with
`shiftDate >= startDate && shiftDate <= endDate`, both ends inclusive. -/
def getShiftsByDateRange (s : StoreState) (startDate endDate : Nat) : List Shift :=
  (mapValues s.shifts).filter
    (fun sh => decide (startDate ≤ sh.date) && decide (sh.date ≤ endDate))

/-- `MemStorage.createShift`. -/
def createShift (s : StoreState) (x : InsertShift) : Shift × StoreState :=
  let id := s.shiftIdCounter
  let newShift : Shift :=
    { id := id, userId := x.userId, date := x.date, startTime := x.startTime
      endTime := x.endTime, department := x.department, notes := x.notes }
  (newShift, { s with shifts := mapSet id newShift s.shifts, shiftIdCounter := id + 1 })

/-- Model of `Partial<InsertShift>`: every key optional, `id` not present. -/
structure ShiftPatch where
  userId : Option Nat := none
  date : Option Nat := none
  startTime : Option String := none
  endTime : Option String := none
  department : Option String := none
  notes : Option (Option String) := none
deriving DecidableEq, Repr

/-- Shallow merge `{ ...shift, ...data }`. -/
def applyShiftPatch (sh : Shift) (p : ShiftPatch) : Shift :=
  { id := sh.id
    userId := p.userId.getD sh.userId
    date := p.date.getD sh.date
    startTime := p.startTime.getD sh.startTime
    endTime := p.endTime.getD sh.endTime
    department := p.department.getD sh.department
    notes := p.notes.getD sh.notes }

/-- `MemStorage.updateShift`. -/
def updateShift (s : StoreState) (id : Nat) (p : ShiftPatch) : Option Shift × StoreState :=
  match getShift s id with
  | none => (none, s)
  | some sh =>
    let updatedShift := applyShiftPatch sh p
    (some updatedShift, { s with shifts := mapSet id updatedShift s.shifts })

/-- `MemStorage.deleteShift`. -/
def deleteShift (s : StoreState) (id : Nat) : Bool × StoreState :=
  let r := mapDelete id s.shifts
  (r.1, { s with shifts := r.2 })

/-- `MemStorage.getTimeOffRequest`. -/
def getTimeOffRequest (s : StoreState) (id : Nat) : Option TimeOffRequest :=
  mapGet id s.timeOffRequests

/-- `MemStorage.getTimeOffRequests`. -/
def getTimeOffRequests (s : StoreState) : List TimeOffRequest :=
  mapValues s.timeOffRequests

/-- `MemStorage.getPendingTimeOffRequests`. -/
def getPendingTimeOffRequests (s : StoreState) : List TimeOffRequest :=
  (mapValues s.timeOffRequests).filter (fun r => r.status == "pending")

/-- `MemStorage.getTimeOffRequestsByUser`. -/
def getTimeOffRequestsByUser (s : StoreState) (userId : Nat) : List TimeOffRequest :=
  (mapValues s.timeOffRequests).filter (fun r => r.userId == userId)

/-- `MemStorage.createTimeOffRequest`: stamps status pending,
`createdAt: new Date()`, `reviewedBy: null`, `reviewedAt: null`. -/
def createTimeOffRequest (s : StoreState) (r : InsertTimeOffRequest) :
    TimeOffRequest × StoreState :=
  let id := s.timeOffRequestIdCounter
  let newRequest : TimeOffRequest :=
    { id := id, userId := r.userId, startDate := r.startDate, endDate := r.endDate
      reason := r.reason, status := "pending", createdAt := s.clock
      reviewedBy := none, reviewedAt := none }
  (newRequest,
   { s with timeOffRequests := mapSet id newRequest s.timeOffRequests
            timeOffRequestIdCounter := id + 1 })

/-- Model of `Partial<TimeOffRequest>`: every key of the FULL entity is
optional — including `id`, `status`, `createdAt`, `reviewedBy`, `reviewedAt`
(`updateTimeOffRequest` takes `Partial<TimeOffRequest>`, not
`Partial<InsertTimeOffRequest>`). -/
structure TimeOffRequestPatch where
  id : Option Nat := none
  userId : Option Nat := none
  startDate : Option Nat := none
  endDate : Option Nat := none
  reason : Option (Option String) := none
  status : Option String := none
  createdAt : Option Nat := none
  reviewedBy : Option (Option Nat) := none
  reviewedAt : Option (Option Nat) := none
deriving DecidableEq, Repr

/-- Shallow merge `{ ...request, ...data }` — note a supplied `id` key
overwrites the `id` field of the entity. -/
def applyTimeOffRequestPatch (r : TimeOffRequest) (p : TimeOffRequestPatch) : TimeOffRequest :=
  { id := p.id.getD r.id
    userId := p.userId.getD r.userId
    startDate := p.startDate.getD r.startDate
    endDate := p.endDate.getD r.endDate
    reason := p.reason.getD r.reason
    status := p.status.getD r.status
    createdAt := p.createdAt.getD r.createdAt
    reviewedBy := p.reviewedBy.getD r.reviewedBy
    reviewedAt := p.reviewedAt.getD r.reviewedAt }

/-- `MemStorage.updateTimeOffRequest`. -/
def updateTimeOffRequest (s : StoreState) (id : Nat) (p : TimeOffRequestPatch) :
    Option TimeOffRequest × StoreState :=
  match getTimeOffRequest s id with
  | none => (none, s)
  | some r =>
    let updatedRequest := applyTimeOffRequestPatch r p
    (some updatedRequest, { s with timeOffRequests := mapSet id updatedRequest s.timeOffRequests })

/-- `MemStorage.createActivity`: stamps the next activity id and `createdAt: new Date()`. -/
def createActivity (s : StoreState) (a : InsertActivity) : Activity × StoreState :=
  let id := s.activityIdCounter
  let newActivity : Activity :=
    { id := id, type := a.type, description := a.description
      userId := a.userId, relatedUserId := a.relatedUserId, createdAt := s.clock }
  (newActivity,
   { s with activities := mapSet id newActivity s.activities, activityIdCounter := id + 1 })

/-- `MemStorage.approveTimeOffRequest`: not-found short-circuits; otherwise the
status change commits, and an `approval` Activity is appended only when both
the reviewer and the requester resolve. -/
def approveTimeOffRequest (s : StoreState) (id reviewerId : Nat) :
    Option TimeOffRequest × StoreState :=
  match getTimeOffRequest s id with
  | none => (none, s)
  | some request =>
    let updatedRequest : TimeOffRequest :=
      { request with status := "approved", reviewedBy := some reviewerId
                     reviewedAt := some s.clock }
    let s1 := { s with timeOffRequests := mapSet id updatedRequest s.timeOffRequests }
    match getUser s1 reviewerId, getUser s1 request.userId with
    | some reviewer, some requester =>
      let s2 := (createActivity s1
        { type := "approval"
          description := "La demande de congé de " ++ requester.firstName ++ " "
            ++ requester.lastName ++ " a été approuvée par " ++ reviewer.firstName
            ++ " " ++ reviewer.lastName
          userId := some reviewerId
          relatedUserId := some request.userId }).2
      (some updatedRequest, s2)
    | _, _ => (some updatedRequest, s1)

/-- `MemStorage.denyTimeOffRequest`: symmetric to approve, status `denied`,
activity type `denial`. -/
def denyTimeOffRequest (s : StoreState) (id reviewerId : Nat) :
    Option TimeOffRequest × StoreState :=
  match getTimeOffRequest s id with
  | none => (none, s)
  | some request =>
    let updatedRequest : TimeOffRequest :=
      { request with status := "denied", reviewedBy := some reviewerId
                     reviewedAt := some s.clock }
    let s1 := { s with timeOffRequests := mapSet id updatedRequest s.timeOffRequests }
    match getUser s1 reviewerId, getUser s1 request.userId with
    | some reviewer, some requester =>
      let s2 := (createActivity s1
        { type := "denial"
          description := "La demande de congé de " ++ requester.firstName ++ " "
            ++ requester.lastName ++ " a été refusée par " ++ reviewer.firstName
            ++ " " ++ reviewer.lastName
          userId := some reviewerId
          relatedUserId := some request.userId }).2
      (some updatedRequest, s2)
    | _, _ => (some updatedRequest, s1)

/-- `MemStorage.getActivity`. -/
def getActivity (s : StoreState) (id : Nat) : Option Activity :=
  mapGet id s.activities

/-- One step of the stable sort: insert `a` in front of the first element `b`
with `b.createdAt <= a.createdAt` (comparator
`(a, b) => b.createdAt.getTime() - a.createdAt.getTime()` non-positive). -/
def insertByCreatedAt (a : Activity) : List Activity → List Activity
  | [] => [a]
  | b :: l => if b.createdAt ≤ a.createdAt then a :: b :: l else b :: insertByCreatedAt a l

/-- Stable sort of activities, descending by `createdAt`, equal keys kept in
input order — the behaviour of `Array.prototype.sort` (stable per ECMAScript
2019) with the comparator of `getActivities`. -/
def sortByCreatedAtDesc : List Activity → List Activity
  | [] => []
  | a :: l => insertByCreatedAt a (sortByCreatedAtDesc l)

/-- `MemStorage.getActivities`: sort all activities descending by `createdAt`,
then `limit ? allActivities.slice(0, limit) : allActivities` — a falsy limit
(absent, or 0) returns the whole sorted list. -/
def getActivities (s : StoreState) (limit : Option Nat) : List Activity :=
  let allActivities := sortByCreatedAtDesc (mapValues s.activities)
  match limit with
  | none => allActivities
  | some n => if n = 0 then allActivities else allActivities.take n

/-- `MemStorage.getMessage`. -/
def getMessage (s : StoreState) (id : Nat) : Option Message :=
  mapGet id s.messages

/-- `MemStorage.getMessages`. -/
def getMessages (s : StoreState) : List Message :=
  mapValues s.messages

/-- `MemStorage.getMessagesByUser`. -/
def getMessagesByUser (s : StoreState) (userId : Nat) : List Message :=
  (mapValues s.messages).filter
    (fun m => m.senderId == some userId || m.receiverId == userId)

/-- `MemStorage.getUnreadMessageCount`. -/
def getUnreadMessageCount (s : StoreState) (userId : Nat) : Nat :=
  ((mapValues s.messages).filter (fun m => m.receiverId == userId && !m.isRead)).length

/-- `MemStorage.createMessage`: stamps the next id, `isRead: false`,
`createdAt: new Date()`. -/
def createMessage (s : StoreState) (m : InsertMessage) : Message × StoreState :=
  let id := s.messageIdCounter
  let newMessage : Message :=
    { id := id, senderId := m.senderId, receiverId := m.receiverId
      subject := m.subject, content := m.content, isRead := false
      priority := m.priority, messageType := m.messageType, createdAt := s.clock }
  (newMessage, { s with messages := mapSet id newMessage s.messages, messageIdCounter := id + 1 })

/-- `MemStorage.markMessageAsRead`. -/
def markMessageAsRead (s : StoreState) (id : Nat) : Option Message × StoreState :=
  match getMessage s id with
  | none => (none, s)
  | some m =>
    let updatedMessage := { m with isRead := true }
    (some updatedMessage, { s with messages := mapSet id updatedMessage s.messages })

/-- One state-mutating call on a `MemStorage` instance (every mutating method
of the class), plus `tick`, which models the ambient wall clock advancing
between calls. -/
inductive Op where
  | createUser (u : InsertUser)
  | updateUser (id : Nat) (p : UserPatch)
  | deleteUser (id : Nat)
  | createDepartment (d : InsertDepartment)
  | updateDepartment (id : Nat) (p : DepartmentPatch)
  | deleteDepartment (id : Nat)
  | createShift (x : InsertShift)
  | updateShift (id : Nat) (p : ShiftPatch)
  | deleteShift (id : Nat)
  | createTimeOffRequest (r : InsertTimeOffRequest)
  | updateTimeOffRequest (id : Nat) (p : TimeOffRequestPatch)
  | approveTimeOffRequest (id reviewerId : Nat)
  | denyTimeOffRequest (id reviewerId : Nat)
  | createActivity (a : InsertActivity)
  | createMessage (m : InsertMessage)
  | markMessageAsRead (id : Nat)
  | tick (d : Nat)

/-- Effect of one operation on the store state (returned values dropped). -/
def applyOp (s : StoreState) : Op → StoreState
  | .createUser u => (createUser s u).2
  | .updateUser id p => (updateUser s id p).2
  | .deleteUser id => (deleteUser s id).2
  | .createDepartment d => (createDepartment s d).2
  | .updateDepartment id p => (updateDepartment s id p).2
  | .deleteDepartment id => (deleteDepartment s id).2
  | .createShift x => (createShift s x).2
  | .updateShift id p => (updateShift s id p).2
  | .deleteShift id => (deleteShift s id).2
  | .createTimeOffRequest r => (createTimeOffRequest s r).2
  | .updateTimeOffRequest id p => (updateTimeOffRequest s id p).2
  | .approveTimeOffRequest id reviewerId => (approveTimeOffRequest s id reviewerId).2
  | .denyTimeOffRequest id reviewerId => (denyTimeOffRequest s id reviewerId).2
  | .createActivity a => (createActivity s a).2
  | .createMessage m => (createMessage s m).2
  | .markMessageAsRead id => (markMessageAsRead s id).2
  | .tick d => { s with clock := s.clock + d }

/-- Effect of a sequence of operations, first to last. -/
def applyOps (s : StoreState) (ops : List Op) : StoreState :=
  ops.foldl applyOp s

/-- Ordering produced by the activity sort: strictly newer first, and for equal
`createdAt` the smaller id (the earlier-inserted entry) first — the stable-sort
tie-break. -/
def actBefore (a b : Activity) : Prop :=
  b.createdAt < a.createdAt ∨ (a.createdAt = b.createdAt ∧ a.id < b.id)

instance : DecidableRel actBefore := fun a b => by
  unfold actBefore
  infer_instance


/-- Bundle of the six per-kind id counters, for monotonicity statements. -/
def countersOf (s : StoreState) : List Nat :=
  [s.userIdCounter, s.departmentIdCounter, s.shiftIdCounter,
   s.timeOffRequestIdCounter, s.activityIdCounter, s.messageIdCounter]


/-- Concrete employee user (the seeded user `sophie`), used to instantiate
permission theorems. -/
def employeeUserExample : User :=
  { id := 2, username := "sophie", password := "password", firstName := "Sophie"
    lastName := "Martin", role := .employee, position := some "Service"
    department := some "Service", profileImage := none }

/-- Concrete time-off insert payload for witnesses. -/
def c3Insert : InsertTimeOffRequest :=
  { userId := 2, startDate := 100, endDate := 200, reason := none }

/-- The request created from `c3Insert` on the empty store (id 1, createdAt 0). -/
def c3Request : TimeOffRequest :=
  (createTimeOffRequest emptyState c3Insert).1

/-- Store holding that one request, after the wall clock has advanced by 50ms. -/
def c3State : StoreState :=
  applyOp (createTimeOffRequest emptyState c3Insert).2 (Op.tick 50)

/-- Two activity payloads created back-to-back within the same millisecond. -/
def c6InsertA : InsertActivity :=
  { type := "shift_added", description := "Nouveau quart", userId := none, relatedUserId := none }

/-- Second of the two same-millisecond activity payloads. -/
def c6InsertB : InsertActivity :=
  { type := "shift_swap", description := "Echange de quart", userId := none, relatedUserId := none }

/-- Store with two activities (ids 1 and 2) bearing the same `createdAt`. -/
def c6State : StoreState :=
  (createActivity (createActivity emptyState c6InsertA).2 c6InsertB).2

/-- Store with a single time-off request stored under key 1 with id 1. -/
def c9State : StoreState :=
  (createTimeOffRequest emptyState c3Insert).2

/-- A `Partial<TimeOffRequest>` carrying only an `id` key. -/
def c9IdPatch : TimeOffRequestPatch :=
  { id := some 99 }

/-- Concrete user insert payload for witnesses. -/
def c9UserIns : InsertUser :=
  { username := "alex", password := "password", firstName := "Alex", lastName := "Dubois"
    role := .employee, position := none, department := some "Cuisine", profileImage := none }

/-- Store with one user (id 1). -/
def c9UserState : StoreState :=
  (createUser emptyState c9UserIns).2

/-- Concrete department insert payload for witnesses. -/
def c9DeptIns : InsertDepartment :=
  { name := "Cuisine", color := "#a3e635" }

/-- Store with one department (id 1). -/
def c9DeptState : StoreState :=
  (createDepartment emptyState c9DeptIns).2

/-- Concrete shift insert payload for witnesses. -/
def c9ShiftIns : InsertShift :=
  { userId := 1, date := 500, startTime := "09:00:00", endTime := "17:00:00"
    department := "Cuisine", notes := none }

/-- Store with one shift (id 1). -/
def c9ShiftState : StoreState :=
  (createShift emptyState c9ShiftIns).2

/-- The reviewed copy of a time-off request as written by approve/deny:
status replaced, `reviewedBy` the reviewer, `reviewedAt` the current clock. -/
def reviewedRequest (req : TimeOffRequest) (st : String) (reviewerId clock : Nat) :
    TimeOffRequest :=
  { req with status := st, reviewedBy := some reviewerId, reviewedAt := some clock }


theorem mapGet_mapSet_self (k : Nat) (v : α) (m : List (Nat × α)) :
    mapGet k (mapSet k v m) = some v := by
  induction m with
  | nil => simp [mapGet, mapSet]
  | cons p rest ih =>
    by_cases h : p.1 = k
    · simp [mapGet, mapSet, h]
    · simpa [mapGet, mapSet, h] using ih

theorem mapSet_of_get_self (k : Nat) (v : α) (m : List (Nat × α))
    (h : mapGet k m = some v) : mapSet k v m = m := by
  induction m with
  | nil => simp [mapGet] at h
  | cons p rest ih =>
    by_cases hk : p.1 = k
    · rw [mapGet, if_pos (by simpa using hk)] at h
      cases h
      rcases p with ⟨k', v'⟩
      simp only at hk
      subst hk
      simp [mapSet]
    · rw [mapGet, if_neg (by simpa using hk)] at h
      simp [mapSet, hk, ih h]

theorem insertByCreatedAt_perm (a : Activity) (l : List Activity) :
    (insertByCreatedAt a l).Perm (a :: l) := by
  induction l with
  | nil => simp [insertByCreatedAt]
  | cons b l ih =>
    rw [insertByCreatedAt]
    by_cases h : b.createdAt ≤ a.createdAt
    · rw [if_pos h]
    · rw [if_neg h]
      exact (ih.cons b).trans (List.Perm.swap a b l)

theorem sortByCreatedAtDesc_perm (l : List Activity) :
    (sortByCreatedAtDesc l).Perm l := by
  induction l with
  | nil => simp [sortByCreatedAtDesc]
  | cons a l ih =>
    rw [sortByCreatedAtDesc]
    exact (insertByCreatedAt_perm a _).trans (ih.cons a)

theorem actBefore_trans {a b c : Activity} (h1 : actBefore a b) (h2 : actBefore b c) :
    actBefore a c := by
  rcases h1 with h1 | ⟨e1, i1⟩
  · rcases h2 with h2 | ⟨e2, i2⟩
    · exact Or.inl (h2.trans h1)
    · exact Or.inl (e2 ▸ h1)
  · rcases h2 with h2 | ⟨e2, i2⟩
    · exact Or.inl (by rw [e1]; exact h2)
    · exact Or.inr ⟨e1.trans e2, i1.trans i2⟩

theorem insertByCreatedAt_pairwise (a : Activity) (l : List Activity)
    (hl : l.Pairwise actBefore)
    (ha : ∀ b ∈ l, a.createdAt = b.createdAt → a.id < b.id) :
    (insertByCreatedAt a l).Pairwise actBefore := by
  induction l with
  | nil => simp [insertByCreatedAt]
  | cons b l ih =>
    rcases List.pairwise_cons.mp hl with ⟨hb, hl'⟩
    rw [insertByCreatedAt]
    by_cases h : b.createdAt ≤ a.createdAt
    · rw [if_pos h]
      have hab : actBefore a b := by
        rcases lt_or_eq_of_le h with hlt | heq
        · exact Or.inl hlt
        · exact Or.inr ⟨heq.symm, ha b (List.mem_cons_self b l) heq.symm⟩
      refine List.pairwise_cons.mpr ⟨?_, hl⟩
      intro c hc
      rcases List.mem_cons.mp hc with rfl | hc
      · exact hab
      · exact actBefore_trans hab (hb c hc)
    · rw [if_neg h]
      refine List.pairwise_cons.mpr ⟨?_, ?_⟩
      · intro c hc
        rcases List.mem_cons.mp ((insertByCreatedAt_perm a l).mem_iff.mp hc) with rfl | hc
        · exact Or.inl (lt_of_not_ge h)
        · exact hb c hc
      · exact ih hl' (fun c hc => ha c (List.mem_cons_of_mem b hc))

theorem sortByCreatedAtDesc_pairwise (l : List Activity)
    (h : l.Pairwise (fun a b => a.id < b.id)) :
    (sortByCreatedAtDesc l).Pairwise actBefore := by
  induction l with
  | nil => simp [sortByCreatedAtDesc]
  | cons a l ih =>
    rcases List.pairwise_cons.mp h with ⟨hid, hl⟩
    rw [sortByCreatedAtDesc]
    refine insertByCreatedAt_pairwise a _ (ih hl) ?_
    intro b hb _
    exact hid b ((sortByCreatedAtDesc_perm l).mem_iff.mp hb)

theorem applyOp_counters_mono (s : StoreState) (op : Op) :
    List.Forall₂ (· ≤ ·) (countersOf s) (countersOf (applyOp s op)) := by
  cases op with
  | createUser u =>
    simp [applyOp, createUser, countersOf, Nat.le_succ]
  | updateUser id p =>
    unfold applyOp updateUser
    rcases h : getUser s id with _ | u <;> simp [h, countersOf]
  | deleteUser id =>
    simp [applyOp, deleteUser, countersOf]
  | createDepartment d =>
    simp [applyOp, createDepartment, countersOf, Nat.le_succ]
  | updateDepartment id p =>
    unfold applyOp updateDepartment
    rcases h : getDepartment s id with _ | d <;> simp [h, countersOf]
  | deleteDepartment id =>
    simp [applyOp, deleteDepartment, countersOf]
  | createShift x =>
    simp [applyOp, createShift, countersOf, Nat.le_succ]
  | updateShift id p =>
    unfold applyOp updateShift
    rcases h : getShift s id with _ | sh <;> simp [h, countersOf]
  | deleteShift id =>
    simp [applyOp, deleteShift, countersOf]
  | createTimeOffRequest r =>
    simp [applyOp, createTimeOffRequest, countersOf, Nat.le_succ]
  | updateTimeOffRequest id p =>
    unfold applyOp updateTimeOffRequest
    rcases h : getTimeOffRequest s id with _ | r <;> simp [h, countersOf]
  | approveTimeOffRequest id reviewerId =>
    unfold applyOp approveTimeOffRequest
    rcases h : getTimeOffRequest s id with _ | r
    · simp [h, countersOf]
    · simp only [h]
      split <;> simp [createActivity, countersOf, Nat.le_succ]
  | denyTimeOffRequest id reviewerId =>
    unfold applyOp denyTimeOffRequest
    rcases h : getTimeOffRequest s id with _ | r
    · simp [h, countersOf]
    · simp only [h]
      split <;> simp [createActivity, countersOf, Nat.le_succ]
  | createActivity a =>
    simp [applyOp, createActivity, countersOf, Nat.le_succ]
  | createMessage m =>
    simp [applyOp, createMessage, countersOf, Nat.le_succ]
  | markMessageAsRead id =>
    unfold applyOp markMessageAsRead
    rcases h : getMessage s id with _ | m <;> simp [h, countersOf]
  | tick d =>
    simp [applyOp, countersOf]

theorem applyOps_counters_mono (s : StoreState) (ops : List Op) :
    List.Forall₂ (· ≤ ·) (countersOf s) (countersOf (applyOps s ops)) := by
  induction ops generalizing s with
  | nil =>
    simp [applyOps, countersOf]
  | cons op ops ih =>
    have h1 := applyOp_counters_mono s op
    have h2 := ih (applyOp s op)
    simp only [applyOps, List.foldl] at h2 ⊢
    simp only [countersOf] at h1 h2 ⊢
    rcases List.forall₂_cons.mp h1 with ⟨a1, h1⟩
    rcases List.forall₂_cons.mp h1 with ⟨b1, h1⟩
    rcases List.forall₂_cons.mp h1 with ⟨c1, h1⟩
    rcases List.forall₂_cons.mp h1 with ⟨d1, h1⟩
    rcases List.forall₂_cons.mp h1 with ⟨e1, h1⟩
    rcases List.forall₂_cons.mp h1 with ⟨f1, _⟩
    rcases List.forall₂_cons.mp h2 with ⟨a2, h2⟩
    rcases List.forall₂_cons.mp h2 with ⟨b2, h2⟩
    rcases List.forall₂_cons.mp h2 with ⟨c2, h2⟩
    rcases List.forall₂_cons.mp h2 with ⟨d2, h2⟩
    rcases List.forall₂_cons.mp h2 with ⟨e2, h2⟩
    rcases List.forall₂_cons.mp h2 with ⟨f2, _⟩
    exact List.Forall₂.cons (a1.trans a2) (List.Forall₂.cons (b1.trans b2)
      (List.Forall₂.cons (c1.trans c2) (List.Forall₂.cons (d1.trans d2)
        (List.Forall₂.cons (e1.trans e2) (List.Forall₂.cons (f1.trans f2) List.Forall₂.nil)))))

/-- C1: for every acting user whose role lacks `editShift` but holds
`editOwnShift`, the shift-edit authorization (the `PUT /api/shifts/:id`
permission dispatch composed with `checkPermission`) allows when the resource
owner is the acting user and denies when it is anyone else. -/
theorem claim_C1_editOwnShift_fallback (u : User) (otherId : Nat) (b : Option Nat)
    (hNoEdit : (rolePermissions u.role).editShift = false)
    (_hOwn : (rolePermissions u.role).editOwnShift = true) :
    authorizeShiftEdit u u.id b = Decision.allow ∧
    (otherId ≠ u.id → authorizeShiftEdit u otherId b = Decision.denyNoPermission) := by
  have hrole : u.role = Role.employee := by
    cases h : u.role <;> rw [h] at hNoEdit <;>
      first
      | rfl
      | simp [rolePermissions] at hNoEdit
  constructor
  · simp [authorizeShiftEdit, hrole, checkPermission, rolePermissions, Permission.get]
  · intro hne
    simp [authorizeShiftEdit, hrole, hne, checkPermission, rolePermissions, Permission.get]

/-- Witness for C1 at the concrete employee user `sophie` (id 2): editing her
own shift is allowed, editing a shift of another user (owner id 3) is denied. -/
theorem claim_C1_editOwnShift_fallback_witness :
    (rolePermissions employeeUserExample.role).editShift = false ∧
    (rolePermissions employeeUserExample.role).editOwnShift = true ∧
    (authorizeShiftEdit employeeUserExample employeeUserExample.id (some 2) = Decision.allow ∧
     (3 ≠ employeeUserExample.id →
       authorizeShiftEdit employeeUserExample 3 (some 2) = Decision.denyNoPermission)) :=
  ⟨by decide, by decide,
   claim_C1_editOwnShift_fallback employeeUserExample 3 (some 2) (by decide) (by decide)⟩

/-- C2: in the static role-capability table, the admin role holds all 18
capabilities (and `checkPermission` therefore allows an admin every
capability), the manager role lacks `createDepartment`, and the employee role
lacks `createShift`, `editShift` and `deleteShift` while holding
`editOwnShift`. -/
theorem claim_C2_static_role_table :
    (∀ c : Capability, (rolePermissions Role.admin).get c = true) ∧
    (∀ (c : Capability) (cu : Option User) (b : Option Nat),
       checkPermission (rolePermissions Role.admin) c cu b = Decision.allow) ∧
    (rolePermissions Role.manager).createDepartment = false ∧
    (rolePermissions Role.employee).createShift = false ∧
    (rolePermissions Role.employee).editShift = false ∧
    (rolePermissions Role.employee).deleteShift = false ∧
    (rolePermissions Role.employee).editOwnShift = true := by
  refine ⟨?_, ?_, by decide, by decide, by decide, by decide, by decide⟩
  · intro c
    cases c <;> decide
  · intro c cu b
    cases c <;> simp [checkPermission, rolePermissions, Permission.get]

/-- C5: approving or denying an id that resolves to no time-off request
returns the not-found signal and leaves the whole store state unchanged. -/
theorem claim_C5_not_found_short_circuits (s : StoreState) (id reviewerId : Nat)
    (h : getTimeOffRequest s id = none) :
    approveTimeOffRequest s id reviewerId = (none, s) ∧
    denyTimeOffRequest s id reviewerId = (none, s) := by
  constructor <;> simp [approveTimeOffRequest, denyTimeOffRequest, h]

/-- Witness for C5 on the empty store at id 1. -/
theorem claim_C5_not_found_short_circuits_witness :
    getTimeOffRequest emptyState 1 = none ∧
    approveTimeOffRequest emptyState 1 5 = (none, emptyState) ∧
    denyTimeOffRequest emptyState 1 5 = (none, emptyState) :=
  ⟨by decide,
   (claim_C5_not_found_short_circuits emptyState 1 5 (by decide)).1,
   (claim_C5_not_found_short_circuits emptyState 1 5 (by decide)).2⟩

/-- C7: the shift-by-date-range query returns exactly the stored shifts whose
`date` field lies in the inclusive range; in particular a shift whose date
equals the end bound is included. -/
theorem claim_C7_date_range_inclusive (s : StoreState) (a b : Nat) (sh : Shift) :
    sh ∈ getShiftsByDateRange s a b ↔ sh ∈ getShifts s ∧ a ≤ sh.date ∧ sh.date ≤ b := by
  simp [getShiftsByDateRange, getShifts, List.mem_filter]

/-- C10: a limit of 0 is falsy, so listing activities with limit 0 returns the
whole sorted activity list — the same result as an absent limit, and a
permutation of all stored activities (not the empty list). -/
theorem claim_C10_zero_limit_lists_all (s : StoreState) :
    getActivities s (some 0) = getActivities s none ∧
    (getActivities s (some 0)).Perm (mapValues s.activities) := by
  refine ⟨by simp [getActivities], ?_⟩
  simpa [getActivities] using sortByCreatedAtDesc_perm (mapValues s.activities)

/-- C3: a freshly created time-off request is pending and unreviewed; and
approving a resolving id yields a request that is approved, reviewed by the
given reviewer, with a non-null `reviewedAt` (the approval-time clock) no
earlier than its `createdAt`.  The hypothesis `req.createdAt ≤ s.clock` is the
wall-clock monotonicity fact: the store stamped `createdAt` with `new Date()`
at creation, and real time never decreases afterwards. -/
theorem claim_C3_timeoff_lifecycle :
    (∀ (s : StoreState) (r : InsertTimeOffRequest),
       (createTimeOffRequest s r).1.status = "pending" ∧
       (createTimeOffRequest s r).1.reviewedBy = none ∧
       (createTimeOffRequest s r).1.reviewedAt = none) ∧
    (∀ (s : StoreState) (id reviewerId : Nat) (req : TimeOffRequest),
       getTimeOffRequest s id = some req →
       req.createdAt ≤ s.clock →
       ∃ r, (approveTimeOffRequest s id reviewerId).1 = some r ∧
         r.status = "approved" ∧ r.reviewedBy = some reviewerId ∧
         r.createdAt = req.createdAt ∧
         ∃ t, r.reviewedAt = some t ∧ r.createdAt ≤ t) := by
  constructor
  · intro s r
    exact ⟨rfl, rfl, rfl⟩
  · intro s id reviewerId req hreq hclock
    refine ⟨reviewedRequest req "approved" reviewerId s.clock, ?_, rfl, rfl, rfl,
            s.clock, rfl, hclock⟩
    unfold approveTimeOffRequest
    rw [hreq]
    dsimp only
    split <;> rfl

/-- Witness for C3: create a request on the empty store, let the clock advance
50ms, approve it with reviewer 5. -/
theorem claim_C3_timeoff_lifecycle_witness :
    ((createTimeOffRequest emptyState c3Insert).1.status = "pending" ∧
     (createTimeOffRequest emptyState c3Insert).1.reviewedBy = none ∧
     (createTimeOffRequest emptyState c3Insert).1.reviewedAt = none) ∧
    (getTimeOffRequest c3State 1 = some c3Request ∧
     c3Request.createdAt ≤ c3State.clock ∧
     ∃ r, (approveTimeOffRequest c3State 1 5).1 = some r ∧
       r.status = "approved" ∧ r.reviewedBy = some 5 ∧
       r.createdAt = c3Request.createdAt ∧
       ∃ t, r.reviewedAt = some t ∧ r.createdAt ≤ t) :=
  ⟨claim_C3_timeoff_lifecycle.1 emptyState c3Insert,
   by decide, by decide,
   claim_C3_timeoff_lifecycle.2 c3State 1 5 c3Request (by decide) (by decide)⟩

/-- C4: when the target request resolves but the reviewer or the requester
user does not, approve (and symmetrically deny) still commits the
status/reviewedBy/reviewedAt change and returns the updated request, while the
activity map and its counter are untouched (no Activity record is written; the
resulting state differs from `s` only in `timeOffRequests`, so no Message is
written either). -/
theorem claim_C4_best_effort_logging (s : StoreState) (id reviewerId : Nat)
    (req : TimeOffRequest)
    (hreq : getTimeOffRequest s id = some req)
    (husers : getUser s reviewerId = none ∨ getUser s req.userId = none) :
    approveTimeOffRequest s id reviewerId =
      (some (reviewedRequest req "approved" reviewerId s.clock),
       { s with timeOffRequests :=
           mapSet id (reviewedRequest req "approved" reviewerId s.clock) s.timeOffRequests }) ∧
    denyTimeOffRequest s id reviewerId =
      (some (reviewedRequest req "denied" reviewerId s.clock),
       { s with timeOffRequests :=
           mapSet id (reviewedRequest req "denied" reviewerId s.clock) s.timeOffRequests }) ∧
    getTimeOffRequest (approveTimeOffRequest s id reviewerId).2 id =
      some (reviewedRequest req "approved" reviewerId s.clock) ∧
    getTimeOffRequest (denyTimeOffRequest s id reviewerId).2 id =
      some (reviewedRequest req "denied" reviewerId s.clock) ∧
    (approveTimeOffRequest s id reviewerId).2.activities = s.activities ∧
    (denyTimeOffRequest s id reviewerId).2.activities = s.activities := by
  have happ : approveTimeOffRequest s id reviewerId =
      (some (reviewedRequest req "approved" reviewerId s.clock),
       { s with timeOffRequests :=
           mapSet id (reviewedRequest req "approved" reviewerId s.clock) s.timeOffRequests }) := by
    unfold approveTimeOffRequest
    rw [hreq]
    dsimp only
    split
    · next rev rqr h1 h2 =>
      exfalso
      rcases husers with h | h
      · exact Option.noConfusion (h.symm.trans h1)
      · exact Option.noConfusion (h.symm.trans h2)
    · rfl
  have hden : denyTimeOffRequest s id reviewerId =
      (some (reviewedRequest req "denied" reviewerId s.clock),
       { s with timeOffRequests :=
           mapSet id (reviewedRequest req "denied" reviewerId s.clock) s.timeOffRequests }) := by
    unfold denyTimeOffRequest
    rw [hreq]
    dsimp only
    split
    · next rev rqr h1 h2 =>
      exfalso
      rcases husers with h | h
      · exact Option.noConfusion (h.symm.trans h1)
      · exact Option.noConfusion (h.symm.trans h2)
    · rfl
  refine ⟨happ, hden, ?_, ?_, ?_, ?_⟩
  · rw [happ]
    exact mapGet_mapSet_self id _ s.timeOffRequests
  · rw [hden]
    exact mapGet_mapSet_self id _ s.timeOffRequests
  · rw [happ]
  · rw [hden]

/-- Witness for C4: approve the request in `c3State` (which holds no users, so
the reviewer lookup fails): the change commits, no activity is written. -/
theorem claim_C4_best_effort_logging_witness :
    getTimeOffRequest c3State 1 = some c3Request ∧
    getUser c3State 5 = none ∧
    approveTimeOffRequest c3State 1 5 =
      (some (reviewedRequest c3Request "approved" 5 c3State.clock),
       { c3State with timeOffRequests :=
           (mapSet 1 (reviewedRequest c3Request "approved" 5 c3State.clock)
             c3State.timeOffRequests) }) ∧
    (approveTimeOffRequest c3State 1 5).2.activities = c3State.activities ∧
    (denyTimeOffRequest c3State 1 5).2.activities = c3State.activities :=
  ⟨by decide, by decide,
   (claim_C4_best_effort_logging c3State 1 5 c3Request (by decide) (Or.inl (by decide))).1,
   (claim_C4_best_effort_logging c3State 1 5 c3Request (by decide)
     (Or.inl (by decide))).2.2.2.2.1,
   (claim_C4_best_effort_logging c3State 1 5 c3Request (by decide)
     (Or.inl (by decide))).2.2.2.2.2⟩

theorem applyOps_each_counter_mono (s : StoreState) (ops : List Op) :
    s.userIdCounter ≤ (applyOps s ops).userIdCounter ∧
    s.departmentIdCounter ≤ (applyOps s ops).departmentIdCounter ∧
    s.shiftIdCounter ≤ (applyOps s ops).shiftIdCounter ∧
    s.timeOffRequestIdCounter ≤ (applyOps s ops).timeOffRequestIdCounter ∧
    s.activityIdCounter ≤ (applyOps s ops).activityIdCounter ∧
    s.messageIdCounter ≤ (applyOps s ops).messageIdCounter := by
  have h := applyOps_counters_mono s ops
  simp only [countersOf] at h
  rcases List.forall₂_cons.mp h with ⟨h1, h⟩
  rcases List.forall₂_cons.mp h with ⟨h2, h⟩
  rcases List.forall₂_cons.mp h with ⟨h3, h⟩
  rcases List.forall₂_cons.mp h with ⟨h4, h⟩
  rcases List.forall₂_cons.mp h with ⟨h5, h⟩
  rcases List.forall₂_cons.mp h with ⟨h6, _⟩
  exact ⟨h1, h2, h3, h4, h5, h6⟩

/-- C8: for every entity kind, `create` followed by `get` of the new id
returns exactly the created entity; and across any interleaving sequence of
store operations (updates, deletes, other creates, clock ticks included), a
later create in the same kind always assigns a strictly greater id — ids are
never reused. -/
theorem claim_C8_create_get_and_increasing_ids :
    (∀ s u, getUser (createUser s u).2 (createUser s u).1.id = some (createUser s u).1) ∧
    (∀ s d, getDepartment (createDepartment s d).2 (createDepartment s d).1.id =
       some (createDepartment s d).1) ∧
    (∀ s x, getShift (createShift s x).2 (createShift s x).1.id = some (createShift s x).1) ∧
    (∀ s r, getTimeOffRequest (createTimeOffRequest s r).2 (createTimeOffRequest s r).1.id =
       some (createTimeOffRequest s r).1) ∧
    (∀ s a, getActivity (createActivity s a).2 (createActivity s a).1.id =
       some (createActivity s a).1) ∧
    (∀ s m, getMessage (createMessage s m).2 (createMessage s m).1.id =
       some (createMessage s m).1) ∧
    (∀ s u ops u2, (createUser s u).1.id <
       (createUser (applyOps (createUser s u).2 ops) u2).1.id) ∧
    (∀ s d ops d2, (createDepartment s d).1.id <
       (createDepartment (applyOps (createDepartment s d).2 ops) d2).1.id) ∧
    (∀ s x ops x2, (createShift s x).1.id <
       (createShift (applyOps (createShift s x).2 ops) x2).1.id) ∧
    (∀ s r ops r2, (createTimeOffRequest s r).1.id <
       (createTimeOffRequest (applyOps (createTimeOffRequest s r).2 ops) r2).1.id) ∧
    (∀ s a ops a2, (createActivity s a).1.id <
       (createActivity (applyOps (createActivity s a).2 ops) a2).1.id) ∧
    (∀ s m ops m2, (createMessage s m).1.id <
       (createMessage (applyOps (createMessage s m).2 ops) m2).1.id) := by
  refine ⟨?_, ?_, ?_, ?_, ?_, ?_, ?_, ?_, ?_, ?_, ?_, ?_⟩
  · intro s u
    simp [getUser, createUser, mapGet_mapSet_self]
  · intro s d
    simp [getDepartment, createDepartment, mapGet_mapSet_self]
  · intro s x
    simp [getShift, createShift, mapGet_mapSet_self]
  · intro s r
    simp [getTimeOffRequest, createTimeOffRequest, mapGet_mapSet_self]
  · intro s a
    simp [getActivity, createActivity, mapGet_mapSet_self]
  · intro s m
    simp [getMessage, createMessage, mapGet_mapSet_self]
  · intro s u ops u2
    have h := (applyOps_each_counter_mono (createUser s u).2 ops).1
    simp only [createUser] at h ⊢
    omega
  · intro s d ops d2
    have h := (applyOps_each_counter_mono (createDepartment s d).2 ops).2.1
    simp only [createDepartment] at h ⊢
    omega
  · intro s x ops x2
    have h := (applyOps_each_counter_mono (createShift s x).2 ops).2.2.1
    simp only [createShift] at h ⊢
    omega
  · intro s r ops r2
    have h := (applyOps_each_counter_mono (createTimeOffRequest s r).2 ops).2.2.2.1
    simp only [createTimeOffRequest] at h ⊢
    omega
  · intro s a ops a2
    have h := (applyOps_each_counter_mono (createActivity s a).2 ops).2.2.2.2.1
    simp only [createActivity] at h ⊢
    omega
  · intro s m ops m2
    have h := (applyOps_each_counter_mono (createMessage s m).2 ops).2.2.2.2.2
    simp only [createMessage] at h ⊢
    omega

/-- Counterexample to C6: in `c6State` the two stored activities (ids 1 and 2)
share the same `createdAt`, yet listing with limit 1 returns the activity with
id 1 — the LOWER id — not id 2 as the higher-id tie-break would demand.  The
sort is stable, so equal timestamps keep insertion (ascending-id) order. -/
theorem claim_C6_counterexample :
    (mapValues c6State.activities).map (fun a => (a.id, a.createdAt)) = [(1, 0), (2, 0)] ∧
    (getActivities c6State (some 1)).map (fun a => a.id) = [1] ∧
    ¬ (getActivities c6State (some 1)).map (fun a => a.id) = [2] := by
  decide

/-- C6 (amended): for every store whose activities were inserted with
ascending ids (as the store always does) and every positive limit `n`, the
listing equals the first `n` entries of a permutation of all stored activities
that is sorted newest-first by `createdAt`, with ties between equal timestamps
in favour of the LOWER id. -/
theorem claim_C6_amended_limit_listing (s : StoreState) (n : Nat) (hn : 0 < n)
    (hasc : (mapValues s.activities).Pairwise (fun a b => a.id < b.id)) :
    ∃ l : List Activity,
      l.Perm (mapValues s.activities) ∧
      l.Pairwise actBefore ∧
      getActivities s (some n) = l.take n := by
  refine ⟨sortByCreatedAtDesc (mapValues s.activities),
          sortByCreatedAtDesc_perm _,
          sortByCreatedAtDesc_pairwise _ hasc, ?_⟩
  simp [getActivities, Nat.pos_iff_ne_zero.mp hn]

/-- Witness for the amended C6 on `c6State` with limit 1. -/
theorem claim_C6_amended_limit_listing_witness :
    0 < 1 ∧
    (mapValues c6State.activities).Pairwise (fun a b => a.id < b.id) ∧
    ∃ l : List Activity,
      l.Perm (mapValues c6State.activities) ∧
      l.Pairwise actBefore ∧
      getActivities c6State (some 1) = l.take 1 :=
  ⟨by decide, by decide,
   claim_C6_amended_limit_listing c6State 1 (by decide) (by decide)⟩

/-- Counterexample to C9: `updateTimeOffRequest` takes a partial of the FULL
entity, so a partial carrying an `id` key overwrites the stored id:
in `c9State` the request stored under key 1 has id 1, and updating it with
`{ id: 99 }` returns — and stores — an entity whose id is 99. -/
theorem claim_C9_counterexample :
    (getTimeOffRequest c9State 1).map (fun r => r.id) = some 1 ∧
    ((updateTimeOffRequest c9State 1 c9IdPatch).1).map (fun r => r.id) = some 99 ∧
    (getTimeOffRequest (updateTimeOffRequest c9State 1 c9IdPatch).2 1).map (fun r => r.id) =
      some 99 := by
  decide

/-- C9 (amended): every update is a shallow merge in which omitted fields
retain their prior value — an empty partial returns the entity unchanged and
leaves the store untouched, for all four updatable kinds — and the stored id
is never changed by `updateUser`/`updateDepartment`/`updateShift` (whose
partial types exclude `id`), nor by `updateTimeOffRequest` whenever its
partial does not itself carry an `id` field. -/
theorem claim_C9_amended_shallow_merge :
    (∀ s id, updateUser s id {} = (getUser s id, s)) ∧
    (∀ s id, updateDepartment s id {} = (getDepartment s id, s)) ∧
    (∀ s id, updateShift s id {} = (getShift s id, s)) ∧
    (∀ s id, updateTimeOffRequest s id {} = (getTimeOffRequest s id, s)) ∧
    (∀ s id p u, getUser s id = some u →
       ∃ r, (updateUser s id p).1 = some r ∧ r.id = u.id) ∧
    (∀ s id p d, getDepartment s id = some d →
       ∃ r, (updateDepartment s id p).1 = some r ∧ r.id = d.id) ∧
    (∀ s id p sh, getShift s id = some sh →
       ∃ r, (updateShift s id p).1 = some r ∧ r.id = sh.id) ∧
    (∀ s id p req, getTimeOffRequest s id = some req → p.id = none →
       ∃ r, (updateTimeOffRequest s id p).1 = some r ∧ r.id = req.id) := by
  refine ⟨?_, ?_, ?_, ?_, ?_, ?_, ?_, ?_⟩
  · intro s id
    rcases h : getUser s id with _ | u
    · simp [updateUser, h]
    · simp only [updateUser, h]
      have hpu : applyUserPatch u {} = u := rfl
      rw [hpu, mapSet_of_get_self id u s.users (by simpa [getUser] using h)]
  · intro s id
    rcases h : getDepartment s id with _ | d
    · simp [updateDepartment, h]
    · simp only [updateDepartment, h]
      have hpd : applyDepartmentPatch d {} = d := rfl
      rw [hpd, mapSet_of_get_self id d s.departments (by simpa [getDepartment] using h)]
  · intro s id
    rcases h : getShift s id with _ | sh
    · simp [updateShift, h]
    · simp only [updateShift, h]
      have hps : applyShiftPatch sh {} = sh := rfl
      rw [hps, mapSet_of_get_self id sh s.shifts (by simpa [getShift] using h)]
  · intro s id
    rcases h : getTimeOffRequest s id with _ | req
    · simp [updateTimeOffRequest, h]
    · simp only [updateTimeOffRequest, h]
      have hpr : applyTimeOffRequestPatch req {} = req := rfl
      rw [hpr, mapSet_of_get_self id req s.timeOffRequests
        (by simpa [getTimeOffRequest] using h)]
  · intro s id p u h
    refine ⟨applyUserPatch u p, ?_, rfl⟩
    simp [updateUser, h]
  · intro s id p d h
    refine ⟨applyDepartmentPatch d p, ?_, rfl⟩
    simp [updateDepartment, h]
  · intro s id p sh h
    refine ⟨applyShiftPatch sh p, ?_, rfl⟩
    simp [updateShift, h]
  · intro s id p req h hp
    refine ⟨applyTimeOffRequestPatch req p, ?_, ?_⟩
    · simp [updateTimeOffRequest, h]
    · simp [applyTimeOffRequestPatch, hp]

/-- Witness for the amended C9: an empty patch on a missing id; and concrete
updates of a user, a department, a shift and a time-off request (the last with
an id-free partial), each preserving the stored id. -/
theorem claim_C9_amended_shallow_merge_witness :
    updateShift emptyState 7 {} = (getShift emptyState 7, emptyState) ∧
    (getUser c9UserState 1 = some (createUser emptyState c9UserIns).1 ∧
     ∃ r, (updateUser c9UserState 1 { firstName := some "Alexandre" }).1 = some r ∧
       r.id = (createUser emptyState c9UserIns).1.id) ∧
    (getDepartment c9DeptState 1 = some (createDepartment emptyState c9DeptIns).1 ∧
     ∃ r, (updateDepartment c9DeptState 1 { color := some "#ffffff" }).1 = some r ∧
       r.id = (createDepartment emptyState c9DeptIns).1.id) ∧
    (getShift c9ShiftState 1 = some (createShift emptyState c9ShiftIns).1 ∧
     ∃ r, (updateShift c9ShiftState 1 { notes := some (some "swap") }).1 = some r ∧
       r.id = (createShift emptyState c9ShiftIns).1.id) ∧
    (getTimeOffRequest c9State 1 = some c3Request ∧
     ({ status := some "approved" } : TimeOffRequestPatch).id = none ∧
     ∃ r, (updateTimeOffRequest c9State 1 { status := some "approved" }).1 = some r ∧
       r.id = c3Request.id) :=
  ⟨claim_C9_amended_shallow_merge.2.2.1 emptyState 7,
   ⟨by decide,
    claim_C9_amended_shallow_merge.2.2.2.2.1 c9UserState 1
      { firstName := some "Alexandre" } (createUser emptyState c9UserIns).1 (by decide)⟩,
   ⟨by decide,
    claim_C9_amended_shallow_merge.2.2.2.2.2.1 c9DeptState 1
      { color := some "#ffffff" } (createDepartment emptyState c9DeptIns).1 (by decide)⟩,
   ⟨by decide,
    claim_C9_amended_shallow_merge.2.2.2.2.2.2.1 c9ShiftState 1
      { notes := some (some "swap") } (createShift emptyState c9ShiftIns).1 (by decide)⟩,
   ⟨by decide, by decide,
    claim_C9_amended_shallow_merge.2.2.2.2.2.2.2 c9State 1
      { status := some "approved" } c3Request (by decide) (by decide)⟩⟩
